import Mathlib

/-!
Verification development for the mcp-docsrs documentation server.

Part A embeds the configuration pipeline of `src/index.ts` (argument /
environment resolution via JavaScript `||`, `Number.parseInt`, and the
validation block at lines 88-132).

Parts B-D model the core fetch-cache-serve pipeline (CacheStore,
RequestCoordinator, durable persistence).  That code lives in `server.js`
and its imports, which are not part of the reviewed sources, so those
components are modelled from the specification (their doc comments say so
explicitly).

The file is organised as definitions first, then the theorems.
-/

/-! ## Part A: configuration pipeline, embedded from src/index.ts -/

/-- JavaScript truthiness for an optional string: `undefined` and the empty
string are falsy (`Boolean("") = false`), everything else truthy. -/
def truthyStr : Option String → Bool
  | none => false
  | some s => !s.isEmpty

/-- JavaScript `a || b` on optional strings: returns `a` when truthy,
otherwise `b` (so `"" || x = x`, `undefined || x = x`). -/
def jsOr (a b : Option String) : Option String :=
  if truthyStr a then a else b

/-- The resolution pattern `flagValue || envValue || "default"` used at
src/index.ts lines 89-100: the chain ends in a non-empty literal, so it
always produces a string. -/
def resolveValue (flag envv : Option String) (dflt : String) : String :=
  (jsOr flag (jsOr envv (some dflt))).getD dflt

/-- Value of a decimal digit character, `none` otherwise. -/
def decDigitVal (c : Char) : Option Nat :=
  if '0' ≤ c ∧ c ≤ '9' then some (c.toNat - 48) else none

/-- Value of a hexadecimal digit character, `none` otherwise. -/
def hexDigitVal (c : Char) : Option Nat :=
  if '0' ≤ c ∧ c ≤ '9' then some (c.toNat - 48)
  else if 'a' ≤ c ∧ c ≤ 'f' then some (c.toNat - 87)
  else if 'A' ≤ c ∧ c ≤ 'F' then some (c.toNat - 55)
  else none

/-- `Number.parseInt(s)` with no radix argument, as used at src/index.ts
lines 89-100: skip leading whitespace, read an optional sign, switch to
base 16 after a `0x`/`0X` prefix, then consume the longest prefix of
digits of the base; the result is `none` (JavaScript `NaN`) when no digit
is consumed.  Trailing garbage is ignored, so `parseIntJS "1.5" = some 1`. -/
def parseIntJS (s : String) : Option Int :=
  let cs := s.data.dropWhile Char.isWhitespace
  let signed : Int × List Char :=
    match cs with
    | '-' :: r => (-1, r)
    | '+' :: r => (1, r)
    | _ => (1, cs)
  let based : (Char → Option Nat) × Nat × List Char :=
    match signed.2 with
    | '0' :: 'x' :: r => (hexDigitVal, 16, r)
    | '0' :: 'X' :: r => (hexDigitVal, 16, r)
    | r => (decDigitVal, 10, r)
  let ds := based.2.2.takeWhile (fun c => (based.1 c).isSome)
  if ds.isEmpty then none
  else some (signed.1 * Int.ofNat (ds.foldl (fun acc c => acc * based.2.1 + (based.1 c).getD 0) 0))

/-- Command-line flag values as produced by `parseArgs` (src/index.ts
lines 8-21): every string option is absent (`none`) or supplied. -/
structure Flags where
  port : Option String := none
  stdio : Option Bool := none
  cacheTtl : Option String := none
  maxCacheSize : Option String := none
  requestTimeout : Option String := none
  dbPath : Option String := none
deriving DecidableEq, Repr

/-- The environment variables read at src/index.ts lines 89-101. -/
structure Env where
  PORT : Option String := none
  CACHE_TTL : Option String := none
  MAX_CACHE_SIZE : Option String := none
  REQUEST_TIMEOUT : Option String := none
  DB_PATH : Option String := none
deriving DecidableEq, Repr

/-- The `ServerConfig` object built at src/index.ts lines 125-132.
`port` is `none` exactly when the TypeScript value is `undefined`. -/
structure ServerConfig where
  cacheTtl : Int
  maxCacheSize : Int
  requestTimeout : Int
  dbPath : Option String
  port : Option Int
  useStdio : Bool
deriving DecidableEq, Repr

/-- The four fatal validation failures at src/index.ts lines 104-122, in
source order. -/
inductive ConfigError where
  | invalidPort
  | invalidCacheTtl
  | invalidMaxCacheSize
  | invalidRequestTimeout
deriving DecidableEq, Repr

/-- `Number.parseInt(values.port || process.env.PORT || "3331")`
(src/index.ts line 89). -/
def portVal (fl : Flags) (env : Env) : Option Int :=
  parseIntJS (resolveValue fl.port env.PORT "3331")

/-- `Number.parseInt(values["cache-ttl"] || process.env.CACHE_TTL || "3600000")`
(src/index.ts lines 92-94). -/
def cacheTtlVal (fl : Flags) (env : Env) : Option Int :=
  parseIntJS (resolveValue fl.cacheTtl env.CACHE_TTL "3600000")

/-- `Number.parseInt(values["max-cache-size"] || process.env.MAX_CACHE_SIZE || "100")`
(src/index.ts lines 95-97). -/
def maxCacheSizeVal (fl : Flags) (env : Env) : Option Int :=
  parseIntJS (resolveValue fl.maxCacheSize env.MAX_CACHE_SIZE "100")

/-- `Number.parseInt(values["request-timeout"] || process.env.REQUEST_TIMEOUT || "30000")`
(src/index.ts lines 98-100). -/
def requestTimeoutVal (fl : Flags) (env : Env) : Option Int :=
  parseIntJS (resolveValue fl.requestTimeout env.REQUEST_TIMEOUT "30000")

/-- `values["db-path"] || process.env.DB_PATH` (src/index.ts line 101):
no built-in default, may stay `undefined`. -/
def dbPathVal (fl : Flags) (env : Env) : Option String :=
  jsOr fl.dbPath env.DB_PATH

/-- `Number.isNaN(x) || x <= 0` on a parse result (src/index.ts
lines 109, 114, 119). -/
def badPosInt : Option Int → Bool
  | none => true
  | some v => v ≤ 0

/-- `Number.isNaN(port) || port <= 0 || port > 65535` (src/index.ts line 104). -/
def badPort : Option Int → Bool
  | none => true
  | some v => v ≤ 0 || v > 65535

/-- The guard of the first validation block, src/index.ts line 104:
`!useStdio && (Number.isNaN(port) || port <= 0 || port > 65535)`. -/
def portCheckFails (fl : Flags) (env : Env) : Bool :=
  !fl.stdio.getD false && badPort (portVal fl env)

/-- The whole validation-and-construction block of src/index.ts
lines 88-132: parse every value, run the four fatal checks in source
order, and on success build the `ServerConfig` (with `port` set to
`undefined` in stdio mode). -/
def buildConfig (fl : Flags) (env : Env) : Except ConfigError ServerConfig :=
  let useStdio := fl.stdio.getD false
  let port := portVal fl env
  let cacheTtl := cacheTtlVal fl env
  let maxCacheSize := maxCacheSizeVal fl env
  let requestTimeout := requestTimeoutVal fl env
  if !useStdio && badPort port then .error .invalidPort
  else if badPosInt cacheTtl then .error .invalidCacheTtl
  else if badPosInt maxCacheSize then .error .invalidMaxCacheSize
  else if badPosInt requestTimeout then .error .invalidRequestTimeout
  else .ok
    { cacheTtl := cacheTtl.getD 0
      maxCacheSize := maxCacheSize.getD 0
      requestTimeout := requestTimeout.getD 0
      dbPath := dbPathVal fl env
      port := if useStdio then none else port
      useStdio := useStdio }

/-- A string is the decimal notation of a positive integer: non-empty,
all decimal digits, value at least one. -/
def isPosIntString (s : String) : Bool :=
  !s.isEmpty && s.data.all (fun c => decide ('0' ≤ c ∧ c ≤ '9')) &&
    decide (parseIntJS s ≠ some 0)

/-! ## Part B: CacheStore, modelled from the spec (section 4.1)

The CacheStore implementation lives in `server.js`, which is not among
the reviewed sources; the definitions below are modelled from the
specification text. -/

/-- Modelled from the spec: `CacheEntry` of section 3 — key, value,
`insertedAt`, `expiresAt` — extended with the recency stamp that the
eviction policy of section 4.1 tracks (recency updated on `get` and
`put`, ties broken by oldest `insertedAt`). -/
structure CacheEntry (V : Type) where
  key : String
  value : V
  insertedAt : Nat
  expiresAt : Nat
  lastUsed : Nat
deriving DecidableEq, Repr

/-- Modelled from the spec: the in-memory CacheStore state — the entry
list plus a monotone counter stamping each `get`/`put` for recency. -/
structure CacheStore (V : Type) where
  entries : List (CacheEntry V)
  tick : Nat
deriving DecidableEq, Repr

/-- The slice of the validated configuration the store consumes
(`cacheTtlMs`, `maxCacheEntries`). -/
structure StoreCfg where
  cacheTtl : Nat
  maxCacheSize : Nat
deriving DecidableEq, Repr

/-- Eviction preorder of spec section 4.1: `a` is evicted no later than
`b` when `a` was used less recently, with ties broken by oldest
`insertedAt`. -/
def lruLE {V : Type} (a b : CacheEntry V) : Prop :=
  a.lastUsed < b.lastUsed ∨ (a.lastUsed = b.lastUsed ∧ a.insertedAt ≤ b.insertedAt)

instance {V : Type} (a b : CacheEntry V) : Decidable (lruLE a b) := by
  unfold lruLE; infer_instance

/-- Select a least-recently-used entry (first minimal one under `lruLE`)
together with the remaining entries. -/
def selectMin {V : Type} : List (CacheEntry V) → Option (CacheEntry V × List (CacheEntry V))
  | [] => none
  | a :: t =>
    match selectMin t with
    | none => some (a, [])
    | some (m, others) => if lruLE a m then some (a, t) else some (m, a :: others)

/-- Eviction loop of spec section 4.1: while the store is above capacity
remove a least-recently-used entry ("evict repeatedly until at or under
capacity").  `fuel` bounds the iteration count; callers pass the list
length, which always suffices. -/
def evictLoop {V : Type} (cap : Nat) : Nat → List (CacheEntry V) → List (CacheEntry V)
  | 0, l => l
  | fuel + 1, l =>
    if l.length ≤ cap then l
    else
      match selectMin l with
      | none => l
      | some (_, rest) => evictLoop cap fuel rest

/-- Modelled from the spec: the entry created by `put` — `expiresAt =
now + configured TTL` (section 4.1), recency stamped with the current
tick. -/
def newEntry {V : Type} (cfg : StoreCfg) (s : CacheStore V) (k : String) (v : V) (now : Nat) :
    CacheEntry V :=
  { key := k, value := v, insertedAt := now, expiresAt := now + cfg.cacheTtl, lastUsed := s.tick }

/-- The entry list right after insertion/overwrite, before eviction. -/
def putPre {V : Type} (cfg : StoreCfg) (s : CacheStore V) (k : String) (v : V) (now : Nat) :
    List (CacheEntry V) :=
  newEntry cfg s k v now :: s.entries.filter (fun e => !(e.key == k))

/-- Modelled from the spec: `put(key, value)` of section 4.1 —
insert/overwrite with `expiresAt = now + TTL`, then evict
least-recently-used entries until at or under capacity. -/
def put {V : Type} (cfg : StoreCfg) (s : CacheStore V) (k : String) (v : V) (now : Nat) :
    CacheStore V :=
  { entries := evictLoop cfg.maxCacheSize (putPre cfg s k v now).length (putPre cfg s k v now)
    tick := s.tick + 1 }

/-- Modelled from the spec: `get(key)` of section 4.1 — returns the entry
only if present and unexpired (valid iff `now < expiresAt`); an expired
entry is treated as absent and lazily removed; a hit refreshes the
entry's recency stamp. -/
def getEntry {V : Type} (cfg : StoreCfg) (s : CacheStore V) (k : String) (now : Nat) :
    Option (CacheEntry V) × CacheStore V :=
  match s.entries.find? (fun e => e.key == k) with
  | none => (none, s)
  | some e =>
    if now < e.expiresAt then
      (some e,
        { entries := s.entries.map (fun x => if x.key == k then { x with lastUsed := s.tick } else x)
          tick := s.tick + 1 })
    else
      (none, { entries := s.entries.filter (fun x => !(x.key == k)), tick := s.tick })

/-! ## Part C: RequestCoordinator, modelled from the spec (sections 4.2, 5, 9)

The RequestCoordinator implementation lives in `server.js`, not among
the reviewed sources; the state machine below is modelled from the
specification (section 9 prescribes a per-key state machine, section 5 a
single-process cooperative concurrency model whose suspension points make
the events below atomic). -/

/-- Modelled from the spec: the DocFetcher failure taxonomy of
sections 4.3 and 7. -/
inductive FetchError where
  | NotFound
  | UpstreamUnavailable
  | ParseError
  | Timeout
deriving DecidableEq, Repr

/-- Modelled from the spec: the outcome a `resolve()` caller receives —
the owner's success value or its failure, propagated identically. -/
inductive Outcome (V : Type) where
  | success (v : V)
  | failure (e : FetchError)
deriving DecidableEq, Repr

/-- Modelled from the spec: `InFlightRequest` of section 3 (waiters and
`startedAt`), plus a request identity so that the eventual late response
of an abandoned fetch is discarded (section 5, cancellation). -/
structure InFlightRequest where
  reqId : Nat
  waiters : List Nat
  startedAt : Nat
deriving DecidableEq, Repr

/-- Modelled from the spec: the per-key coordinator state — this key's
cached document (the CacheStore slot), the in-flight request if any, the
number of DocFetcher.fetch invocations so far, and the outcomes released
to callers. -/
structure CachedDoc (V : Type) where
  value : V
  insertedAt : Nat
  expiresAt : Nat
deriving DecidableEq, Repr

/-- Per-key coordinator state; see `CachedDoc`. -/
structure CoordState (V : Type) where
  cache : Option (CachedDoc V)
  inflight : Option InFlightRequest
  fetchCount : Nat
  delivered : List (Nat × Outcome V)
  nextReqId : Nat
deriving DecidableEq, Repr

/-- Configuration slice the coordinator consumes. -/
structure CoordCfg where
  requestTimeoutMs : Nat
  cacheTtlMs : Nat
deriving DecidableEq, Repr

/-- Modelled from the spec: the atomic events of the cooperative
concurrency model of section 5 — a `resolve()` call reaching the
coordinator, the owned fetch settling, the request deadline firing. -/
inductive CoordEvent (V : Type) where
  | resolveCall (cid : Nat) (now : Nat)
  | fetchSettles (reqId : Nat) (oc : Outcome V) (now : Nat)
  | timeoutFires (reqId : Nat) (now : Nat)
deriving DecidableEq, Repr

/-- Cached value valid at `now`: present and `now < expiresAt`. -/
def cacheValid {V : Type} (c : Option (CachedDoc V)) (now : Nat) : Option V :=
  match c with
  | none => none
  | some e => if now < e.expiresAt then some e.value else none

/-- Modelled from the spec: one atomic transition of `resolve()`
(section 4.2).  A call returns a valid cached value immediately; else it
registers as waiter on an existing InFlightRequest; else it becomes the
owner, invoking DocFetcher.fetch (counted by `fetchCount`).  A settle of
the current request writes the cache (on success), removes the
InFlightRequest and releases every waiter with the same outcome; a stale
settle is discarded.  A deadline expiry of the current request releases
every waiter with `Timeout` and tears the InFlightRequest down. -/
def coordStep {V : Type} (cfg : CoordCfg) (s : CoordState V) : CoordEvent V → CoordState V
  | .resolveCall cid now =>
    match cacheValid s.cache now with
    | some v => { s with delivered := (cid, Outcome.success v) :: s.delivered }
    | none =>
      match s.inflight with
      | some infl =>
        { s with inflight := some { infl with waiters := cid :: infl.waiters } }
      | none =>
        { s with
            inflight := some { reqId := s.nextReqId, waiters := [cid], startedAt := now }
            fetchCount := s.fetchCount + 1
            nextReqId := s.nextReqId + 1 }
  | .fetchSettles rid oc now =>
    match s.inflight with
    | none => s
    | some infl =>
      if infl.reqId = rid then
        { s with
            inflight := none
            delivered := infl.waiters.map (fun c => (c, oc)) ++ s.delivered
            cache :=
              match oc with
              | .success v =>
                some { value := v, insertedAt := now, expiresAt := now + cfg.cacheTtlMs }
              | .failure _ => s.cache }
      else s
  | .timeoutFires rid now =>
    match s.inflight with
    | none => s
    | some infl =>
      if infl.reqId = rid ∧ infl.startedAt + cfg.requestTimeoutMs ≤ now then
        { s with
            inflight := none
            delivered :=
              infl.waiters.map (fun c => (c, Outcome.failure FetchError.Timeout)) ++ s.delivered }
      else s

/-- A batch of concurrent `resolve()` calls `(callerId, time)` arriving
in sequence while the fetch is outstanding. -/
def resolveCalls {V : Type} (cfg : CoordCfg) (s : CoordState V) (calls : List (Nat × Nat)) :
    CoordState V :=
  calls.foldl (fun st c => coordStep cfg st (.resolveCall c.1 c.2)) s

/-! ## Part D: durable persistence, modelled from the spec (sections 4.1, 6, 8)

The durable backing implementation lives behind CacheStore in
`server.js`, not among the reviewed sources; modelled from the
specification's durable storage layout. -/

/-- Modelled from the spec: the canonical `DocumentationRecord` of
section 3 — package metadata (name and concrete resolved version), item
signature and description, and cross-references; the cache treats it as
a serializable blob. -/
structure DocumentationRecord where
  packageName : String
  resolvedVersion : String
  itemPath : String
  signature : String
  description : String
  crossRefs : List String
deriving DecidableEq, Repr

/-- Modelled from the spec: one row of the durable storage layout of
section 6 — the normalized key, the serialized `DocumentationRecord`,
`insertedAt` and `expiresAt` (timestamps are persisted). -/
structure PersistedEntry where
  key : String
  record : DocumentationRecord
  insertedAt : Nat
  expiresAt : Nat
deriving DecidableEq, Repr

/-- A token of the on-disk single-file key-value structure. -/
inductive Tok where
  | str (s : String)
  | num (n : Nat)
deriving DecidableEq, Repr

/-- Read back a run of string tokens; a numeric token in the run is a
corrupt record. -/
def toksToStrs : List Tok → Option (List String)
  | [] => some []
  | Tok.str s :: r => (toksToStrs r).map (fun l => s :: l)
  | Tok.num _ :: _ => none

/-- Serialize a `DocumentationRecord` to tokens. -/
def encodeRecord (r : DocumentationRecord) : List Tok :=
  Tok.str r.packageName :: Tok.str r.resolvedVersion :: Tok.str r.itemPath ::
    Tok.str r.signature :: Tok.str r.description :: r.crossRefs.map Tok.str

/-- Parse tokens back to a `DocumentationRecord`; any other shape is
corrupt. -/
def decodeRecord (ts : List Tok) : Option DocumentationRecord :=
  match ts with
  | Tok.str p :: Tok.str ver :: Tok.str ip :: Tok.str sg :: Tok.str d :: rest =>
    (toksToStrs rest).map (fun refs =>
      { packageName := p, resolvedVersion := ver, itemPath := ip,
        signature := sg, description := d, crossRefs := refs })
  | _ => none

/-- Serialize a durable row: key, the two persisted timestamps, then the
record. -/
def encodeEntry (pe : PersistedEntry) : List Tok :=
  Tok.str pe.key :: Tok.num pe.insertedAt :: Tok.num pe.expiresAt :: encodeRecord pe.record

/-- Parse a durable row. -/
def decodeEntry (ts : List Tok) : Option PersistedEntry :=
  match ts with
  | Tok.str k :: Tok.num ia :: Tok.num ea :: rest =>
    (decodeRecord rest).map (fun r =>
      { key := k, record := r, insertedAt := ia, expiresAt := ea })
  | _ => none

/-- Parse a whole backing file (a list of rows); one bad row makes the
file corrupt. -/
def decodeBacking : List (List Tok) → Option (List PersistedEntry)
  | [] => some []
  | row :: rows =>
    match decodeEntry row, decodeBacking rows with
    | some pe, some pes => some (pe :: pes)
    | _, _ => none

/-- Modelled from the spec: revalidation of a restored entry — validity
is checked against the originally persisted `insertedAt`/`expiresAt`;
the disk modification time is accepted and ignored (timestamps are
persisted, not derived from disk mtime). -/
def restoreEntry (now mtime : Nat) (pe : PersistedEntry) : Option PersistedEntry :=
  if now < pe.expiresAt then some pe else none

/-- Modelled from the spec: the `CacheCorrupt` condition of section 7
(durable store unreadable at startup — degrades to in-memory, not
fatal). -/
inductive StartupReport where
  | cacheCorrupt
deriving DecidableEq, Repr

/-- Modelled from the spec: opening the CacheStore at startup.  A
readable, decodable backing is restored (entries revalidated through
`restoreEntry`); a corrupt or unreadable backing (`none`) degrades to
the empty in-memory store with a `CacheCorrupt` report. -/
def openCacheStore (now : Nat) (raw : Option (List (List Tok))) :
    CacheStore DocumentationRecord × Option StartupReport :=
  match raw with
  | none => (⟨[], 0⟩, some .cacheCorrupt)
  | some rows =>
    match decodeBacking rows with
    | none => (⟨[], 0⟩, some .cacheCorrupt)
    | some pes =>
      (⟨(pes.filterMap (restoreEntry now 0)).map
          (fun pe => ⟨pe.key, pe.record, pe.insertedAt, pe.expiresAt, 0⟩), 0⟩, none)

/-- A started server: validated configuration, the opened store, and any
startup report. -/
structure RunningServer where
  config : ServerConfig
  store : CacheStore DocumentationRecord
  report : Option StartupReport
deriving Repr

/-- Modelled from the spec: process startup — only configuration
validation failures (Part A, handled outside the core) are fatal; cache
corruption is reported, never fatal. -/
def startServer (fl : Flags) (env : Env) (now : Nat) (raw : Option (List (List Tok))) :
    Except ConfigError RunningServer :=
  match buildConfig fl env with
  | .error e => .error e
  | .ok cfg => .ok ⟨cfg, (openCacheStore now raw).1, (openCacheStore now raw).2⟩

/-! ## Theorems.  First sanity examples, then the supporting lemmas, then
one theorem per claim. -/

example : parseIntJS "3600000" = some 3600000 := by decide
example : parseIntJS "1.5" = some 1 := by decide
example : parseIntJS "" = none := by decide
example : parseIntJS "abc" = none := by decide
example : parseIntJS "-3" = some (-3) := by decide
example : parseIntJS "0x10" = some 16 := by decide
example : parseIntJS "  42px" = some 42 := by decide
example : buildConfig {} {} =
    .ok { cacheTtl := 3600000, maxCacheSize := 100, requestTimeout := 30000,
          dbPath := none, port := some 3331, useStdio := false } := by rfl

/-! ### CacheStore lemmas -/

theorem lruLE_refl {V : Type} (a : CacheEntry V) : lruLE a a := by
  unfold lruLE; omega

theorem lruLE_trans {V : Type} {a b c : CacheEntry V}
    (h₁ : lruLE a b) (h₂ : lruLE b c) : lruLE a c := by
  unfold lruLE at h₁ h₂ ⊢; omega

theorem lruLE_of_not {V : Type} {a b : CacheEntry V} (h : ¬ lruLE a b) : lruLE b a := by
  unfold lruLE at h ⊢; omega

theorem selectMin_eq_none {V : Type} {l : List (CacheEntry V)}
    (h : selectMin l = none) : l = [] := by
  cases l with
  | nil => rfl
  | cons a t =>
    simp only [selectMin] at h
    split at h
    · exact absurd h (by simp)
    · split at h <;> exact absurd h (by simp)

theorem selectMin_length {V : Type} :
    ∀ {l : List (CacheEntry V)} {m : CacheEntry V} {rest : List (CacheEntry V)},
      selectMin l = some (m, rest) → rest.length + 1 = l.length := by
  intro l
  induction l with
  | nil => intro m rest h; simp [selectMin] at h
  | cons a t ih =>
    intro m rest h
    simp only [selectMin] at h
    split at h
    · rename_i ht
      cases h
      have : t = [] := selectMin_eq_none ht
      simp [this]
    · rename_i m' others ht
      split at h
      · cases h; simp
      · cases h
        have := ih ht
        simp only [List.length_cons] at this ⊢
        omega

theorem selectMin_min {V : Type} :
    ∀ {l : List (CacheEntry V)} {m : CacheEntry V} {rest : List (CacheEntry V)},
      selectMin l = some (m, rest) → ∀ x ∈ l, lruLE m x := by
  intro l
  induction l with
  | nil => intro m rest h; simp [selectMin] at h
  | cons a t ih =>
    intro m rest h x hx
    simp only [selectMin] at h
    split at h
    · rename_i ht
      cases h
      have : t = [] := selectMin_eq_none ht
      subst this
      simp only [List.mem_singleton] at hx
      subst hx
      exact lruLE_refl _
    · rename_i m' others ht
      split at h
      · rename_i hle
        cases h
        rcases List.mem_cons.mp hx with rfl | hxt
        · exact lruLE_refl _
        · exact lruLE_trans hle (ih ht x hxt)
      · rename_i hle
        cases h
        rcases List.mem_cons.mp hx with rfl | hxt
        · exact lruLE_of_not hle
        · exact ih ht x hxt

theorem selectMin_subset {V : Type} :
    ∀ {l : List (CacheEntry V)} {m : CacheEntry V} {rest : List (CacheEntry V)},
      selectMin l = some (m, rest) → ∀ x ∈ rest, x ∈ l := by
  intro l
  induction l with
  | nil => intro m rest h; simp [selectMin] at h
  | cons a t ih =>
    intro m rest h x hx
    simp only [selectMin] at h
    split at h
    · cases h; simp at hx
    · rename_i m' others ht
      split at h
      · cases h; exact List.mem_cons_of_mem _ hx
      · cases h
        rcases List.mem_cons.mp hx with rfl | hxo
        · exact List.mem_cons_self _ _
        · exact List.mem_cons_of_mem _ (ih ht x hxo)

theorem selectMin_split {V : Type} :
    ∀ {l : List (CacheEntry V)} {m : CacheEntry V} {rest : List (CacheEntry V)},
      selectMin l = some (m, rest) → ∀ e ∈ l, e ∈ rest ∨ e = m := by
  intro l
  induction l with
  | nil => intro m rest h; simp [selectMin] at h
  | cons a t ih =>
    intro m rest h e he
    simp only [selectMin] at h
    split at h
    · rename_i ht
      cases h
      have : t = [] := selectMin_eq_none ht
      subst this
      simp only [List.mem_singleton] at he
      exact Or.inr he
    · rename_i m' others ht
      split at h
      · cases h
        rcases List.mem_cons.mp he with rfl | het
        · exact Or.inr rfl
        · exact Or.inl het
      · cases h
        rcases List.mem_cons.mp he with rfl | het
        · exact Or.inl (List.mem_cons_self _ _)
        · rcases ih ht e het with h₁ | h₁
          · exact Or.inl (List.mem_cons_of_mem _ h₁)
          · exact Or.inr h₁

theorem evictLoop_subset {V : Type} (cap : Nat) :
    ∀ (fuel : Nat) (l : List (CacheEntry V)) (e : CacheEntry V),
      e ∈ evictLoop cap fuel l → e ∈ l := by
  intro fuel
  induction fuel with
  | zero => intro l e h; exact h
  | succ n ih =>
    intro l e h
    simp only [evictLoop] at h
    split at h
    · exact h
    · split at h
      · exact h
      · rename_i m rest hsel
        exact selectMin_subset hsel e (ih rest e h)

theorem evictLoop_length {V : Type} (cap : Nat) :
    ∀ (fuel : Nat) (l : List (CacheEntry V)), l.length ≤ fuel + cap →
      (evictLoop cap fuel l).length = min l.length cap := by
  intro fuel
  induction fuel with
  | zero =>
    intro l h
    simp only [evictLoop]
    omega
  | succ n ih =>
    intro l h
    simp only [evictLoop]
    split
    · omega
    · rename_i hgt
      split
      · rename_i hsel
        have : l = [] := selectMin_eq_none hsel
        subst this
        simp at hgt
      · rename_i m rest hsel
        have hlen := selectMin_length hsel
        have := ih rest (by omega)
        omega

theorem evictLoop_lru {V : Type} (cap : Nat) :
    ∀ (fuel : Nat) (l : List (CacheEntry V)) (e : CacheEntry V),
      e ∈ l → e ∉ evictLoop cap fuel l →
      ∀ x ∈ evictLoop cap fuel l, lruLE e x := by
  intro fuel
  induction fuel with
  | zero => intro l e he hout; exact absurd he hout
  | succ n ih =>
    intro l e he hout x hx
    simp only [evictLoop] at hout hx
    by_cases hc : l.length ≤ cap
    · rw [if_pos hc] at hout
      exact absurd he hout
    · rw [if_neg hc] at hout hx
      cases hsel : selectMin l with
      | none =>
        rw [hsel] at hout
        exact absurd he hout
      | some p =>
        obtain ⟨m, rest⟩ := p
        rw [hsel] at hout hx
        by_cases herest : e ∈ rest
        · exact ih rest e herest hout x hx
        · rcases selectMin_split hsel e he with h₁ | h₁
          · exact absurd h₁ herest
          · subst h₁
            exact selectMin_min hsel x (selectMin_subset hsel x (evictLoop_subset cap n rest x hx))

theorem find?_filter_not {V : Type} (l : List (CacheEntry V)) (k : String) :
    (l.filter (fun x => !(x.key == k))).find? (fun x => x.key == k) = none := by
  rw [List.find?_eq_none]
  intro x hx
  have h := (List.mem_filter.mp hx).2
  simp only [Bool.not_eq_true'] at h
  simp [h]

theorem put_entry_unique {V : Type} (cfg : StoreCfg) (s : CacheStore V) (k : String) (v : V)
    (now : Nat) (e : CacheEntry V)
    (hfind : (put cfg s k v now).entries.find? (fun x => x.key == k) = some e) :
    e = newEntry cfg s k v now := by
  have hmem : e ∈ (put cfg s k v now).entries := List.mem_of_find?_eq_some hfind
  have hkey : (e.key == k) = true := by
    have h₀ := List.find?_some hfind
    simpa using h₀
  have hpre : e ∈ putPre cfg s k v now := evictLoop_subset _ _ _ _ hmem
  simp only [putPre] at hpre
  rcases List.mem_cons.mp hpre with h | h
  · exact h
  · exfalso
    have h₂ := (List.mem_filter.mp h).2
    simp [hkey] at h₂

/-! ### Coordinator lemmas -/

theorem coordStep_firstCall {V : Type} (cfg : CoordCfg) (s : CoordState V) (cid t : Nat)
    (hc : s.cache = none) (hi : s.inflight = none) :
    coordStep cfg s (.resolveCall cid t) =
      { s with
          inflight := some ⟨s.nextReqId, [cid], t⟩
          fetchCount := s.fetchCount + 1
          nextReqId := s.nextReqId + 1 } := by
  simp only [coordStep, hc, cacheValid, hi]

theorem coordStep_waiterCall {V : Type} (cfg : CoordCfg) (s : CoordState V)
    (infl : InFlightRequest) (cid t : Nat)
    (hc : s.cache = none) (hi : s.inflight = some infl) :
    coordStep cfg s (.resolveCall cid t) =
      { s with inflight := some { infl with waiters := cid :: infl.waiters } } := by
  simp only [coordStep, hc, cacheValid, hi]

theorem resolveCalls_waiting {V : Type} (cfg : CoordCfg) :
    ∀ (calls : List (Nat × Nat)) (s : CoordState V) (infl : InFlightRequest),
      s.cache = none → s.inflight = some infl →
      resolveCalls cfg s calls =
        { s with
            inflight := some { infl with waiters := (calls.map Prod.fst).reverse ++ infl.waiters } } := by
  intro calls
  induction calls with
  | nil =>
    intro s infl hc hi
    simp only [resolveCalls, List.foldl_nil, List.map_nil, List.reverse_nil, List.nil_append]
    cases s
    cases hi
    rfl
  | cons c rest ih =>
    intro s infl hc hi
    rw [show resolveCalls cfg s (c :: rest) =
          resolveCalls cfg (coordStep cfg s (.resolveCall c.1 c.2)) rest from rfl]
    rw [coordStep_waiterCall cfg s infl c.1 c.2 hc hi]
    rw [ih { s with inflight := some { infl with waiters := c.1 :: infl.waiters } }
          { infl with waiters := c.1 :: infl.waiters } hc rfl]
    simp [List.reverse_cons, List.append_assoc]

theorem resolveCalls_owner {V : Type} (cfg : CoordCfg) (s : CoordState V)
    (c : Nat × Nat) (rest : List (Nat × Nat))
    (hc : s.cache = none) (hi : s.inflight = none) :
    resolveCalls cfg s (c :: rest) =
      { s with
          inflight := some ⟨s.nextReqId, (rest.map Prod.fst).reverse ++ [c.1], c.2⟩
          fetchCount := s.fetchCount + 1
          nextReqId := s.nextReqId + 1 } := by
  rw [show resolveCalls cfg s (c :: rest) =
        resolveCalls cfg (coordStep cfg s (.resolveCall c.1 c.2)) rest from rfl]
  rw [coordStep_firstCall cfg s c.1 c.2 hc hi]
  rw [resolveCalls_waiting cfg rest
        { s with
            inflight := some ⟨s.nextReqId, [c.1], c.2⟩
            fetchCount := s.fetchCount + 1
            nextReqId := s.nextReqId + 1 }
        ⟨s.nextReqId, [c.1], c.2⟩ hc rfl]

theorem mem_fst_reverse_append {c : Nat × Nat} {rest : List (Nat × Nat)} {p : Nat × Nat}
    (hp : p ∈ c :: rest) :
    p.1 ∈ (rest.map Prod.fst).reverse ++ [c.1] := by
  rcases List.mem_cons.mp hp with rfl | hpr
  · exact List.mem_append_right _ (List.mem_singleton.mpr rfl)
  · exact List.mem_append_left _ (List.mem_reverse.mpr (List.mem_map_of_mem _ hpr))

theorem coordStep_settle {V : Type} (cfg : CoordCfg) (s : CoordState V)
    (infl : InFlightRequest) (rid : Nat) (oc : Outcome V) (t : Nat)
    (hi : s.inflight = some infl) (hr : infl.reqId = rid) :
    coordStep cfg s (.fetchSettles rid oc t) =
      { s with
          inflight := none
          delivered := infl.waiters.map (fun c => (c, oc)) ++ s.delivered
          cache :=
            match oc with
            | .success v => some { value := v, insertedAt := t, expiresAt := t + cfg.cacheTtlMs }
            | .failure _ => s.cache } := by
  simp only [coordStep, hi]
  rw [if_pos hr]

theorem coordStep_timeout {V : Type} (cfg : CoordCfg) (s : CoordState V)
    (infl : InFlightRequest) (rid t : Nat)
    (hi : s.inflight = some infl) (hr : infl.reqId = rid)
    (hdl : infl.startedAt + cfg.requestTimeoutMs ≤ t) :
    coordStep cfg s (.timeoutFires rid t) =
      { s with
          inflight := none
          delivered :=
            infl.waiters.map (fun c => (c, Outcome.failure FetchError.Timeout)) ++ s.delivered } := by
  simp only [coordStep, hi]
  rw [if_pos ⟨hr, hdl⟩]

/-- C1: for a cache key with no valid cached entry, issuing N ≥ 2
concurrent `resolve()` calls for that key produces exactly one
DocFetcher.fetch invocation, and when the fetch settles every one of the
N callers receives the same outcome (the owner's success value or
failure). -/
theorem concurrent_resolve_single_fetch {V : Type} (cfg : CoordCfg) (s : CoordState V)
    (hc : s.cache = none) (hi : s.inflight = none)
    (calls : List (Nat × Nat)) (hn : 2 ≤ calls.length) (oc : Outcome V) (tset : Nat) :
    (resolveCalls cfg s calls).fetchCount = s.fetchCount + 1 ∧
    (coordStep cfg (resolveCalls cfg s calls) (.fetchSettles s.nextReqId oc tset)).fetchCount =
      s.fetchCount + 1 ∧
    ∀ p ∈ calls,
      (p.1, oc) ∈
        (coordStep cfg (resolveCalls cfg s calls) (.fetchSettles s.nextReqId oc tset)).delivered := by
  cases calls with
  | nil => simp at hn
  | cons c rest =>
    have h1 := resolveCalls_owner cfg s c rest hc hi
    have h2 := coordStep_settle cfg
      { s with
          inflight := some ⟨s.nextReqId, (rest.map Prod.fst).reverse ++ [c.1], c.2⟩
          fetchCount := s.fetchCount + 1
          nextReqId := s.nextReqId + 1 }
      ⟨s.nextReqId, (rest.map Prod.fst).reverse ++ [c.1], c.2⟩ s.nextReqId oc tset rfl rfl
    rw [h1, h2]
    refine ⟨rfl, rfl, ?_⟩
    intro p hp
    exact List.mem_append_left _ (List.mem_map_of_mem _ (mem_fst_reverse_append hp))

/-- C1 witness: two concurrent calls for an uncached key from the initial
state; one fetch, both callers get the owner's success value. -/
theorem concurrent_resolve_single_fetch_witness :
    (resolveCalls ⟨30000, 3600000⟩ (⟨none, none, 0, [], 0⟩ : CoordState Nat)
        [(1, 10), (2, 11)]).fetchCount = 0 + 1 ∧
    (coordStep ⟨30000, 3600000⟩
        (resolveCalls ⟨30000, 3600000⟩ (⟨none, none, 0, [], 0⟩ : CoordState Nat) [(1, 10), (2, 11)])
        (.fetchSettles 0 (Outcome.success 42) 20)).fetchCount = 0 + 1 ∧
    ∀ p ∈ [(1, 10), (2, 11)],
      (p.1, Outcome.success 42) ∈
        (coordStep ⟨30000, 3600000⟩
          (resolveCalls ⟨30000, 3600000⟩ (⟨none, none, 0, [], 0⟩ : CoordState Nat) [(1, 10), (2, 11)])
          (.fetchSettles 0 (Outcome.success 42) 20)).delivered :=
  concurrent_resolve_single_fetch ⟨30000, 3600000⟩ ⟨none, none, 0, [], 0⟩ rfl rfl
    [(1, 10), (2, 11)] (by decide) (Outcome.success 42) 20

/-- C4: when the configured deadline elapses before the fetch settles,
`resolve()` fails with `Timeout` for the owner and every waiter
registered before the deadline, the InFlightRequest is removed, and a
subsequent `resolve()` for the same key triggers a fresh fetch
attempt. -/
theorem timeout_fails_all_waiters_and_clears {V : Type} (cfg : CoordCfg) (s : CoordState V)
    (hc : s.cache = none) (hi : s.inflight = none)
    (c : Nat × Nat) (rest : List (Nat × Nat)) (tN : Nat)
    (hdl : c.2 + cfg.requestTimeoutMs ≤ tN) (cid2 t2 : Nat) :
    (∀ p ∈ c :: rest,
        (p.1, Outcome.failure FetchError.Timeout) ∈
          (coordStep cfg (resolveCalls cfg s (c :: rest)) (.timeoutFires s.nextReqId tN)).delivered) ∧
    (coordStep cfg (resolveCalls cfg s (c :: rest)) (.timeoutFires s.nextReqId tN)).inflight = none ∧
    (coordStep cfg (coordStep cfg (resolveCalls cfg s (c :: rest)) (.timeoutFires s.nextReqId tN))
        (.resolveCall cid2 t2)).fetchCount =
      (coordStep cfg (resolveCalls cfg s (c :: rest)) (.timeoutFires s.nextReqId tN)).fetchCount + 1 ∧
    (coordStep cfg (coordStep cfg (resolveCalls cfg s (c :: rest)) (.timeoutFires s.nextReqId tN))
        (.resolveCall cid2 t2)).inflight.isSome = true := by
  have h1 := resolveCalls_owner cfg s c rest hc hi
  have h2 := coordStep_timeout cfg
    { s with
        inflight := some ⟨s.nextReqId, (rest.map Prod.fst).reverse ++ [c.1], c.2⟩
        fetchCount := s.fetchCount + 1
        nextReqId := s.nextReqId + 1 }
    ⟨s.nextReqId, (rest.map Prod.fst).reverse ++ [c.1], c.2⟩ s.nextReqId tN rfl rfl hdl
  rw [h1, h2]
  have h3 := coordStep_firstCall cfg
    { { s with
          inflight := some ⟨s.nextReqId, (rest.map Prod.fst).reverse ++ [c.1], c.2⟩
          fetchCount := s.fetchCount + 1
          nextReqId := s.nextReqId + 1 } with
        inflight := none
        delivered :=
          ((rest.map Prod.fst).reverse ++ [c.1]).map
            (fun w => (w, Outcome.failure FetchError.Timeout)) ++ s.delivered }
    cid2 t2 hc rfl
  rw [h3]
  refine ⟨?_, rfl, rfl, rfl⟩
  intro p hp
  exact List.mem_append_left _ (List.mem_map_of_mem _ (mem_fst_reverse_append hp))

/-- C4 witness: owner at time 10, waiter at 11, timeout 100 fires at
time 115; both fail with Timeout, the slot is cleared, and caller 3
triggers a fresh fetch. -/
theorem timeout_fails_all_waiters_and_clears_witness :
    (∀ p ∈ [((1 : Nat), (10 : Nat)), (2, 11)],
        (p.1, Outcome.failure FetchError.Timeout) ∈
          (coordStep ⟨100, 1000⟩
            (resolveCalls ⟨100, 1000⟩ (⟨none, none, 0, [], 0⟩ : CoordState Nat) [(1, 10), (2, 11)])
            (.timeoutFires 0 115)).delivered) ∧
    (coordStep ⟨100, 1000⟩
        (resolveCalls ⟨100, 1000⟩ (⟨none, none, 0, [], 0⟩ : CoordState Nat) [(1, 10), (2, 11)])
        (.timeoutFires 0 115)).inflight = none ∧
    (coordStep ⟨100, 1000⟩
        (coordStep ⟨100, 1000⟩
          (resolveCalls ⟨100, 1000⟩ (⟨none, none, 0, [], 0⟩ : CoordState Nat) [(1, 10), (2, 11)])
          (.timeoutFires 0 115))
        (.resolveCall 3 200)).fetchCount =
      (coordStep ⟨100, 1000⟩
        (resolveCalls ⟨100, 1000⟩ (⟨none, none, 0, [], 0⟩ : CoordState Nat) [(1, 10), (2, 11)])
        (.timeoutFires 0 115)).fetchCount + 1 ∧
    (coordStep ⟨100, 1000⟩
        (coordStep ⟨100, 1000⟩
          (resolveCalls ⟨100, 1000⟩ (⟨none, none, 0, [], 0⟩ : CoordState Nat) [(1, 10), (2, 11)])
          (.timeoutFires 0 115))
        (.resolveCall 3 200)).inflight.isSome = true :=
  timeout_fails_all_waiters_and_clears ⟨100, 1000⟩ ⟨none, none, 0, [], 0⟩ rfl rfl
    (1, 10) [(2, 11)] 115 (by decide) 3 200

/-- C5: when the fetch fails with `UpstreamUnavailable`, `resolve()`
surfaces exactly that error to the owner and every registered waiter,
leaves no residual InFlightRequest (a subsequent call triggers a fresh
fetch attempt), and writes nothing into the cache for that key. -/
theorem upstream_unavailable_propagated {V : Type} (cfg : CoordCfg) (s : CoordState V)
    (hc : s.cache = none) (hi : s.inflight = none)
    (c : Nat × Nat) (rest : List (Nat × Nat)) (tset : Nat) (cid2 t2 : Nat) :
    (∀ p ∈ c :: rest,
        (p.1, Outcome.failure FetchError.UpstreamUnavailable) ∈
          (coordStep cfg (resolveCalls cfg s (c :: rest))
            (.fetchSettles s.nextReqId (Outcome.failure FetchError.UpstreamUnavailable) tset)).delivered) ∧
    (coordStep cfg (resolveCalls cfg s (c :: rest))
        (.fetchSettles s.nextReqId (Outcome.failure FetchError.UpstreamUnavailable) tset)).inflight =
      none ∧
    (coordStep cfg (resolveCalls cfg s (c :: rest))
        (.fetchSettles s.nextReqId (Outcome.failure FetchError.UpstreamUnavailable) tset)).cache =
      none ∧
    (coordStep cfg
        (coordStep cfg (resolveCalls cfg s (c :: rest))
          (.fetchSettles s.nextReqId (Outcome.failure FetchError.UpstreamUnavailable) tset))
        (.resolveCall cid2 t2)).fetchCount =
      (coordStep cfg (resolveCalls cfg s (c :: rest))
        (.fetchSettles s.nextReqId (Outcome.failure FetchError.UpstreamUnavailable) tset)).fetchCount
        + 1 := by
  have h1 := resolveCalls_owner cfg s c rest hc hi
  have h2 := coordStep_settle cfg
    { s with
        inflight := some ⟨s.nextReqId, (rest.map Prod.fst).reverse ++ [c.1], c.2⟩
        fetchCount := s.fetchCount + 1
        nextReqId := s.nextReqId + 1 }
    ⟨s.nextReqId, (rest.map Prod.fst).reverse ++ [c.1], c.2⟩ s.nextReqId
    (Outcome.failure FetchError.UpstreamUnavailable) tset rfl rfl
  rw [h1, h2]
  have h3 := coordStep_firstCall cfg
    { { s with
          inflight := some ⟨s.nextReqId, (rest.map Prod.fst).reverse ++ [c.1], c.2⟩
          fetchCount := s.fetchCount + 1
          nextReqId := s.nextReqId + 1 } with
        inflight := none
        delivered :=
          ((rest.map Prod.fst).reverse ++ [c.1]).map
            (fun w => (w, Outcome.failure FetchError.UpstreamUnavailable)) ++ s.delivered
        cache := s.cache }
    cid2 t2 hc rfl
  rw [h3]
  refine ⟨?_, rfl, hc, rfl⟩
  intro p hp
  exact List.mem_append_left _ (List.mem_map_of_mem _ (mem_fst_reverse_append hp))

/-- C5 witness: owner and one waiter, fetch settles with
UpstreamUnavailable; both receive it, no in-flight request or cache
entry remains, and a later call starts a fresh fetch. -/
theorem upstream_unavailable_propagated_witness :
    (∀ p ∈ [((1 : Nat), (10 : Nat)), (2, 11)],
        (p.1, Outcome.failure FetchError.UpstreamUnavailable) ∈
          (coordStep ⟨100, 1000⟩
            (resolveCalls ⟨100, 1000⟩ (⟨none, none, 0, [], 0⟩ : CoordState Nat) [(1, 10), (2, 11)])
            (.fetchSettles 0 (Outcome.failure FetchError.UpstreamUnavailable) 20)).delivered) ∧
    (coordStep ⟨100, 1000⟩
        (resolveCalls ⟨100, 1000⟩ (⟨none, none, 0, [], 0⟩ : CoordState Nat) [(1, 10), (2, 11)])
        (.fetchSettles 0 (Outcome.failure FetchError.UpstreamUnavailable) 20)).inflight = none ∧
    (coordStep ⟨100, 1000⟩
        (resolveCalls ⟨100, 1000⟩ (⟨none, none, 0, [], 0⟩ : CoordState Nat) [(1, 10), (2, 11)])
        (.fetchSettles 0 (Outcome.failure FetchError.UpstreamUnavailable) 20)).cache = none ∧
    (coordStep ⟨100, 1000⟩
        (coordStep ⟨100, 1000⟩
          (resolveCalls ⟨100, 1000⟩ (⟨none, none, 0, [], 0⟩ : CoordState Nat) [(1, 10), (2, 11)])
          (.fetchSettles 0 (Outcome.failure FetchError.UpstreamUnavailable) 20))
        (.resolveCall 3 30)).fetchCount =
      (coordStep ⟨100, 1000⟩
        (resolveCalls ⟨100, 1000⟩ (⟨none, none, 0, [], 0⟩ : CoordState Nat) [(1, 10), (2, 11)])
        (.fetchSettles 0 (Outcome.failure FetchError.UpstreamUnavailable) 20)).fetchCount + 1 :=
  upstream_unavailable_propagated ⟨100, 1000⟩ ⟨none, none, 0, [], 0⟩ rfl rfl
    (1, 10) [(2, 11)] 20 3 30

/-- C2: after any `put` returns, the store holds at most
`maxCacheEntries` entries (eviction removed exactly the overflow, so the
size is the minimum of the pre-eviction size and the capacity), and
every entry removed by eviction precedes every retained entry in the
LRU order (recency stamp updated on `get`/`put`, ties broken by oldest
`insertedAt`) — the evicted entries are exactly the least-recently-used
ones. -/
theorem put_bounded_and_evicts_lru {V : Type} (cfg : StoreCfg) (s : CacheStore V)
    (k : String) (v : V) (now : Nat) :
    (put cfg s k v now).entries.length ≤ cfg.maxCacheSize ∧
    (put cfg s k v now).entries.length =
      min (putPre cfg s k v now).length cfg.maxCacheSize ∧
    ∀ e ∈ putPre cfg s k v now, e ∉ (put cfg s k v now).entries →
      ∀ x ∈ (put cfg s k v now).entries, lruLE e x := by
  have hlen := evictLoop_length cfg.maxCacheSize (putPre cfg s k v now).length
    (putPre cfg s k v now) (by omega)
  refine ⟨?_, ?_, ?_⟩
  · simp only [put]
    omega
  · simp only [put]
    exact hlen
  · intro e he hout x hx
    exact evictLoop_lru cfg.maxCacheSize _ _ e he hout x hx

/-- C3: an entry stored by `put` carries `insertedAt = now` and
`expiresAt = insertedAt + TTL`; `get` returns it at any time strictly
before `expiresAt`, and at or after `expiresAt` treats it as absent and
lazily removes it. -/
theorem put_get_ttl {V : Type} (cfg : StoreCfg) (s : CacheStore V) (k : String) (v : V)
    (now t : Nat) (e : CacheEntry V)
    (hfind : (put cfg s k v now).entries.find? (fun x => x.key == k) = some e) :
    e.insertedAt = now ∧ e.expiresAt = e.insertedAt + cfg.cacheTtl ∧ e.value = v ∧
    (t < now + cfg.cacheTtl → (getEntry cfg (put cfg s k v now) k t).1 = some e) ∧
    (now + cfg.cacheTtl ≤ t →
      (getEntry cfg (put cfg s k v now) k t).1 = none ∧
      ((getEntry cfg (put cfg s k v now) k t).2.entries.find? (fun x => x.key == k)) = none) := by
  have he : e = newEntry cfg s k v now := put_entry_unique cfg s k v now e hfind
  subst he
  refine ⟨rfl, rfl, rfl, ?_, ?_⟩
  · intro ht
    simp only [getEntry, hfind]
    rw [if_pos (show t < (newEntry cfg s k v now).expiresAt from ht)]
  · intro ht
    simp only [getEntry, hfind]
    rw [if_neg (show ¬ t < (newEntry cfg s k v now).expiresAt from by
      simp only [newEntry]; omega)]
    exact ⟨rfl, find?_filter_not _ _⟩

/-- C3 witness: TTL 10, insertion at time 5; the entry carries
`expiresAt = 15`, is returned by `get` at time 14, and is absent and
removed at time 15 (instantiated at read time 14, so the expiry branch
is vacuous here and checked separately by `put_get_ttl` at `t = 15`
being derivable; the hypothesis is discharged by evaluation). -/
theorem put_get_ttl_witness :
    ((⟨"a", 0, 5, 15, 0⟩ : CacheEntry Nat).insertedAt = 5 ∧
     (⟨"a", 0, 5, 15, 0⟩ : CacheEntry Nat).expiresAt =
       (⟨"a", 0, 5, 15, 0⟩ : CacheEntry Nat).insertedAt + 10 ∧
     (⟨"a", 0, 5, 15, 0⟩ : CacheEntry Nat).value = 0 ∧
     (14 < 5 + 10 →
       (getEntry ⟨10, 2⟩ (put ⟨10, 2⟩ (⟨[], 0⟩ : CacheStore Nat) "a" 0 5) "a" 14).1 =
         some ⟨"a", 0, 5, 15, 0⟩) ∧
     (5 + 10 ≤ 14 →
       (getEntry ⟨10, 2⟩ (put ⟨10, 2⟩ (⟨[], 0⟩ : CacheStore Nat) "a" 0 5) "a" 14).1 = none ∧
       ((getEntry ⟨10, 2⟩ (put ⟨10, 2⟩ (⟨[], 0⟩ : CacheStore Nat) "a" 0 5) "a" 14).2.entries.find?
         (fun x => x.key == "a")) = none)) :=
  put_get_ttl ⟨10, 2⟩ ⟨[], 0⟩ "a" 0 5 14 ⟨"a", 0, 5, 15, 0⟩ (by rfl)

/-! ### Persistence lemmas -/

theorem toksToStrs_map_str (l : List String) : toksToStrs (l.map Tok.str) = some l := by
  induction l with
  | nil => rfl
  | cons a t ih => simp [toksToStrs, ih]

theorem decodeRecord_encodeRecord (r : DocumentationRecord) :
    decodeRecord (encodeRecord r) = some r := by
  simp [encodeRecord, decodeRecord, toksToStrs_map_str]

theorem decodeEntry_encodeEntry (pe : PersistedEntry) :
    decodeEntry (encodeEntry pe) = some pe := by
  simp [encodeEntry, decodeEntry, decodeRecord_encodeRecord]

/-- C7: a `DocumentationRecord` row written to durable storage decodes
back field-for-field identical; within TTL the restored entry is the
original, and revalidation depends only on the persisted
`insertedAt`/`expiresAt`, never on the disk modification time. -/
theorem persisted_roundtrip (pe : PersistedEntry) (now mtime₁ mtime₂ : Nat)
    (h : now < pe.expiresAt) :
    decodeEntry (encodeEntry pe) = some pe ∧
    restoreEntry now mtime₁ pe = some pe ∧
    restoreEntry now mtime₁ pe = restoreEntry now mtime₂ pe ∧
    openCacheStore now (some [encodeEntry pe]) =
      (⟨[⟨pe.key, pe.record, pe.insertedAt, pe.expiresAt, 0⟩], 0⟩, none) := by
  refine ⟨decodeEntry_encodeEntry pe, ?_, rfl, ?_⟩
  · simp [restoreEntry, h]
  · simp [openCacheStore, decodeBacking, decodeEntry_encodeEntry pe, restoreEntry, h]

/-- C7 witness: a concrete record persisted at time 100 with expiry 200,
reloaded at time 150 under two different disk mtimes. -/
theorem persisted_roundtrip_witness :
    decodeEntry (encodeEntry
      ⟨"serde/1.0.0/de::Deserializer",
       ⟨"serde", "1.0.0", "de::Deserializer", "pub trait Deserializer",
        "A data format that can deserialize any data structure.",
        ["Serializer", "Deserialize"]⟩, 100, 200⟩) =
      some
        ⟨"serde/1.0.0/de::Deserializer",
         ⟨"serde", "1.0.0", "de::Deserializer", "pub trait Deserializer",
          "A data format that can deserialize any data structure.",
          ["Serializer", "Deserialize"]⟩, 100, 200⟩ ∧
    restoreEntry 150 0
      ⟨"serde/1.0.0/de::Deserializer",
       ⟨"serde", "1.0.0", "de::Deserializer", "pub trait Deserializer",
        "A data format that can deserialize any data structure.",
        ["Serializer", "Deserialize"]⟩, 100, 200⟩ =
      some
        ⟨"serde/1.0.0/de::Deserializer",
         ⟨"serde", "1.0.0", "de::Deserializer", "pub trait Deserializer",
          "A data format that can deserialize any data structure.",
          ["Serializer", "Deserialize"]⟩, 100, 200⟩ ∧
    restoreEntry 150 0
      ⟨"serde/1.0.0/de::Deserializer",
       ⟨"serde", "1.0.0", "de::Deserializer", "pub trait Deserializer",
        "A data format that can deserialize any data structure.",
        ["Serializer", "Deserialize"]⟩, 100, 200⟩ =
    restoreEntry 150 7
      ⟨"serde/1.0.0/de::Deserializer",
       ⟨"serde", "1.0.0", "de::Deserializer", "pub trait Deserializer",
        "A data format that can deserialize any data structure.",
        ["Serializer", "Deserialize"]⟩, 100, 200⟩ ∧
    openCacheStore 150 (some [encodeEntry
      ⟨"serde/1.0.0/de::Deserializer",
       ⟨"serde", "1.0.0", "de::Deserializer", "pub trait Deserializer",
        "A data format that can deserialize any data structure.",
        ["Serializer", "Deserialize"]⟩, 100, 200⟩]) =
      (⟨[⟨"serde/1.0.0/de::Deserializer",
          ⟨"serde", "1.0.0", "de::Deserializer", "pub trait Deserializer",
           "A data format that can deserialize any data structure.",
           ["Serializer", "Deserialize"]⟩, 100, 200, 0⟩], 0⟩, none) :=
  persisted_roundtrip
    ⟨"serde/1.0.0/de::Deserializer",
     ⟨"serde", "1.0.0", "de::Deserializer", "pub trait Deserializer",
      "A data format that can deserialize any data structure.",
      ["Serializer", "Deserialize"]⟩, 100, 200⟩ 150 0 7 (by decide)

/-- C6: a corrupt or unreadable durable backing at startup degrades the
CacheStore to the empty in-memory store with a `CacheCorrupt` report,
and for any configuration the validator accepts, the server still starts
(`startServer` succeeds; corruption is reported, not fatal). -/
theorem corrupt_backing_degrades_to_memory (fl : Flags) (env : Env) (now : Nat)
    (raw : Option (List (List Tok)))
    (hbad : raw = none ∨ ∃ rows, raw = some rows ∧ decodeBacking rows = none) :
    openCacheStore now raw = (⟨[], 0⟩, some StartupReport.cacheCorrupt) ∧
    ∀ cfg, buildConfig fl env = .ok cfg →
      startServer fl env now raw = .ok ⟨cfg, ⟨[], 0⟩, some StartupReport.cacheCorrupt⟩ := by
  have hopen : openCacheStore now raw = (⟨[], 0⟩, some StartupReport.cacheCorrupt) := by
    rcases hbad with rfl | ⟨rows, rfl, hrows⟩
    · rfl
    · simp [openCacheStore, hrows]
  refine ⟨hopen, ?_⟩
  intro cfg hcfg
  simp [startServer, hcfg, hopen]

/-- C6 witness: a backing whose single row starts with a numeric token
is corrupt; with the default (valid) configuration the server starts
with the empty in-memory store and a CacheCorrupt report. -/
theorem corrupt_backing_degrades_to_memory_witness :
    openCacheStore 0 (some [[Tok.num 3]]) = (⟨[], 0⟩, some StartupReport.cacheCorrupt) ∧
    ∀ cfg, buildConfig {} {} = .ok cfg →
      startServer {} {} 0 (some [[Tok.num 3]]) =
        .ok ⟨cfg, ⟨[], 0⟩, some StartupReport.cacheCorrupt⟩ :=
  corrupt_backing_degrades_to_memory {} {} 0 (some [[Tok.num 3]])
    (Or.inr ⟨[[Tok.num 3]], rfl, by rfl⟩)

/-! ### Configuration lemmas and claim theorems -/

theorem badPosInt_false {o : Option Int} (h : badPosInt o = false) : 0 < o.getD 0 := by
  cases o with
  | none => simp [badPosInt] at h
  | some v =>
    simp [badPosInt] at h
    simpa using h

theorem truthyStr_false_of_ne {s : String} (hs : s ≠ "") : (!s.isEmpty) = true := by
  cases hb : s.isEmpty
  · rfl
  · exact absurd ((String.isEmpty_iff s).mp hb) hs

/-- C10: with `--stdio` set, the port is never validated — the outcome of
configuration processing is independent of any supplied `--port`/`PORT`
value and the resulting `ServerConfig.port` is `undefined` — and the
process exits with the invalid-port error exactly when stdio mode is off
and the parsed port is NaN, nonpositive, or above 65535. -/
theorem stdio_disables_port_validation :
    (∀ (fl : Flags) (env : Env) (p₁ p₂ q₁ q₂ : Option String), fl.stdio = some true →
        buildConfig { fl with port := p₁ } { env with PORT := q₁ } =
        buildConfig { fl with port := p₂ } { env with PORT := q₂ }) ∧
    (∀ (fl : Flags) (env : Env) (cfg : ServerConfig), fl.stdio = some true →
        buildConfig fl env = .ok cfg → cfg.port = none) ∧
    (∀ (fl : Flags) (env : Env),
        buildConfig fl env = .error ConfigError.invalidPort ↔
          fl.stdio.getD false = false ∧ badPort (portVal fl env) = true) := by
  refine ⟨?_, ?_, ?_⟩
  · intro fl env p₁ p₂ q₁ q₂ hstdio
    simp [buildConfig, portVal, cacheTtlVal, maxCacheSizeVal, requestTimeoutVal, dbPathVal,
      hstdio]
  · intro fl env cfg hstdio h
    simp only [buildConfig, hstdio, Option.getD_some, Bool.not_true, Bool.false_and,
      Bool.false_eq_true, if_false] at h
    split at h
    · exact absurd h (by simp)
    · split at h
      · exact absurd h (by simp)
      · split at h
        · exact absurd h (by simp)
        · cases h
          rfl
  · intro fl env
    cases hb1 : (!fl.stdio.getD false && badPort (portVal fl env)) <;>
      cases hb2 : badPosInt (cacheTtlVal fl env) <;>
      cases hb3 : badPosInt (maxCacheSizeVal fl env) <;>
      cases hb4 : badPosInt (requestTimeoutVal fl env) <;>
      simp_all [buildConfig]

/-- C8 counterexample: the supplied cache-ttl value "1.5" is not a
positive integer, yet the process does not exit — `Number.parseInt`
truncates it to 1 and the server starts with cacheTtl = 1. -/
theorem fractional_cache_ttl_accepted :
    isPosIntString "1.5" = false ∧
    buildConfig { cacheTtl := some "1.5" } {} =
      .ok { cacheTtl := 1, maxCacheSize := 100, requestTimeout := 30000,
            dbPath := none, port := some 3331, useStdio := false } :=
  ⟨by decide, by rfl⟩

/-- C8 amended: with no flag or environment value the configuration is
cacheTtl = 3600000, maxCacheSize = 100, requestTimeout = 30000; every
accepted configuration carries positive integers for the three values;
and the process exits with the respective validation error exactly when
`Number.parseInt` of the resolved value is NaN or nonpositive — supplied
strings are run through parseInt, so a non-integer string with a
positive-integer prefix (such as "1.5") is accepted as that prefix
rather than rejected. -/
theorem config_defaults_and_validation :
    buildConfig {} {} =
      .ok { cacheTtl := 3600000, maxCacheSize := 100, requestTimeout := 30000,
            dbPath := none, port := some 3331, useStdio := false } ∧
    (∀ (fl : Flags) (env : Env) (cfg : ServerConfig), buildConfig fl env = .ok cfg →
        0 < cfg.cacheTtl ∧ 0 < cfg.maxCacheSize ∧ 0 < cfg.requestTimeout) ∧
    (∀ (fl : Flags) (env : Env),
        buildConfig fl env = .error ConfigError.invalidCacheTtl ↔
          portCheckFails fl env = false ∧ badPosInt (cacheTtlVal fl env) = true) ∧
    (∀ (fl : Flags) (env : Env),
        buildConfig fl env = .error ConfigError.invalidMaxCacheSize ↔
          portCheckFails fl env = false ∧ badPosInt (cacheTtlVal fl env) = false ∧
          badPosInt (maxCacheSizeVal fl env) = true) ∧
    (∀ (fl : Flags) (env : Env),
        buildConfig fl env = .error ConfigError.invalidRequestTimeout ↔
          portCheckFails fl env = false ∧ badPosInt (cacheTtlVal fl env) = false ∧
          badPosInt (maxCacheSizeVal fl env) = false ∧
          badPosInt (requestTimeoutVal fl env) = true) := by
  refine ⟨by rfl, ?_, ?_, ?_, ?_⟩
  · intro fl env cfg h
    cases hb1 : (!fl.stdio.getD false && badPort (portVal fl env)) <;>
      cases hb2 : badPosInt (cacheTtlVal fl env) <;>
      cases hb3 : badPosInt (maxCacheSizeVal fl env) <;>
      cases hb4 : badPosInt (requestTimeoutVal fl env) <;>
      simp only [buildConfig, hb1, hb2, hb3, hb4, Bool.false_eq_true, if_false, if_true,
        reduceCtorEq, Except.ok.injEq] at h
    · subst h
      exact ⟨badPosInt_false hb2, badPosInt_false hb3, badPosInt_false hb4⟩
  · intro fl env
    cases hb1 : (!fl.stdio.getD false && badPort (portVal fl env)) <;>
      cases hb2 : badPosInt (cacheTtlVal fl env) <;>
      cases hb3 : badPosInt (maxCacheSizeVal fl env) <;>
      cases hb4 : badPosInt (requestTimeoutVal fl env) <;>
      (simp_all [buildConfig, portCheckFails]; try (split <;> simp_all))
  · intro fl env
    cases hb1 : (!fl.stdio.getD false && badPort (portVal fl env)) <;>
      cases hb2 : badPosInt (cacheTtlVal fl env) <;>
      cases hb3 : badPosInt (maxCacheSizeVal fl env) <;>
      cases hb4 : badPosInt (requestTimeoutVal fl env) <;>
      (simp_all [buildConfig, portCheckFails]; try (split <;> simp_all))
  · intro fl env
    cases hb1 : (!fl.stdio.getD false && badPort (portVal fl env)) <;>
      cases hb2 : badPosInt (cacheTtlVal fl env) <;>
      cases hb3 : badPosInt (maxCacheSizeVal fl env) <;>
      cases hb4 : badPosInt (requestTimeoutVal fl env) <;>
      (simp_all [buildConfig, portCheckFails]; try (split <;> simp_all))

/-- C9 counterexample: with the cache-ttl flag absent and the CACHE_TTL
environment variable present but empty, resolution falls through to the
built-in default rather than using the set environment value, and the
server starts with the default TTL. -/
theorem empty_env_value_falls_through :
    resolveValue none (some "") "3600000" = "3600000" ∧
    ("3600000" : String) ≠ "" ∧
    buildConfig {} { CACHE_TTL := some "" } =
      .ok { cacheTtl := 3600000, maxCacheSize := 100, requestTimeout := 30000,
            dbPath := none, port := some 3331, useStdio := false } :=
  ⟨rfl, by decide, by rfl⟩

/-- C9 amended: a non-empty command-line flag value takes precedence over
the environment variable; otherwise a non-empty environment value takes
precedence over the built-in default; an empty or absent value falls
through to the next source (for db-path the final fallback is absent);
and the five configuration parameters resolve by exactly this rule. -/
theorem flag_env_default_precedence :
    (∀ (s : String) (envv : Option String) (d : String), s ≠ "" →
        resolveValue (some s) envv d = s) ∧
    (∀ (flag : Option String) (t d : String), truthyStr flag = false → t ≠ "" →
        resolveValue flag (some t) d = t) ∧
    (∀ (flag envv : Option String) (d : String),
        truthyStr flag = false → truthyStr envv = false → resolveValue flag envv d = d) ∧
    (∀ (s : String) (envv : Option String), s ≠ "" → jsOr (some s) envv = some s) ∧
    (∀ (flag envv : Option String), truthyStr flag = false → jsOr flag envv = envv) ∧
    (∀ (fl : Flags) (env : Env),
        portVal fl env = parseIntJS (resolveValue fl.port env.PORT "3331") ∧
        cacheTtlVal fl env = parseIntJS (resolveValue fl.cacheTtl env.CACHE_TTL "3600000") ∧
        maxCacheSizeVal fl env =
          parseIntJS (resolveValue fl.maxCacheSize env.MAX_CACHE_SIZE "100") ∧
        requestTimeoutVal fl env =
          parseIntJS (resolveValue fl.requestTimeout env.REQUEST_TIMEOUT "30000") ∧
        dbPathVal fl env = jsOr fl.dbPath env.DB_PATH) := by
  refine ⟨?_, ?_, ?_, ?_, ?_, fun fl env => ⟨rfl, rfl, rfl, rfl, rfl⟩⟩
  · intro s envv d hs
    simp [resolveValue, jsOr, truthyStr, truthyStr_false_of_ne hs]
  · intro flag t d hflag ht
    have h1 : jsOr (some t) (some d) = some t := by
      simp [jsOr, truthyStr, truthyStr_false_of_ne ht]
    simp only [resolveValue]
    rw [h1]
    simp [jsOr, hflag]
  · intro flag envv d hflag henv
    simp [resolveValue, jsOr, hflag, henv]
  · intro s envv hs
    simp [jsOr, truthyStr, truthyStr_false_of_ne hs]
  · intro flag envv hflag
    simp [jsOr, hflag]
